import Mathlib

/-!
Shallow embedding of `src/src/crypto_hire_backend/src/lib.rs` (the crypto-hire
canister backend): a durable id counter plus a stable map from job id to `Job`,
mutated only through the six service operations
`create_job`, `apply_to_job`, `withdraw_application`, `accept_job`,
`cancel_job`, `fetch_job`.

The thread-local `ID_COUNTER` and `STORAGE` cells become an explicit `State`
record threaded through every operation; the `StableBTreeMap<u64, Job>` is
modelled as an association list with `mapGet` / `mapInsert` / `mapRemove`
matching the map's get / insert (replace-on-write) / remove.  The counter is a
u64 cell, so its increment is taken modulo `2 ^ 64`.  The host time source
`time()` becomes an explicit `now` argument to `create_job`.
-/

deriving instance DecidableEq for Except

namespace CryptoHire

/-- `Job` struct from lib.rs: id, title, description, created_at, the
applicant list (`applicant_name: Vec<String>`) and the optional accepted
applicant (`accepted_applicants: Option<String>`). -/
structure Job where
  id : Nat
  title : String
  description : String
  created_at : Nat
  applicant_name : List String
  accepted_applicants : Option String
  deriving DecidableEq, Repr

/-- `CreateJob` input struct: title and description only. -/
structure CreateJob where
  title : String
  description : String
  deriving DecidableEq, Repr

/-- The `Error` enum: `JobNotFound { msg }` and `InvalidInput { msg }`. -/
inductive Error where
  | JobNotFound (msg : String)
  | InvalidInput (msg : String)
  deriving DecidableEq, Repr

/-- The `JobStatus` enum, declared in lib.rs but not used by any operation. -/
inductive JobStatus where
  | AcceptJob
  | JobWithdrawn
  | JobCancelled
  deriving DecidableEq, Repr

/-- u64 modulus for the id counter cell. -/
def U64_LIMIT : Nat := 2 ^ 64

/-- Lookup in the stable map (`StableBTreeMap::get`). -/
def mapGet (m : List (Nat × Job)) (k : Nat) : Option Job :=
  (m.find? (fun p => p.1 == k)).map Prod.snd

/-- Insert into the stable map (`StableBTreeMap::insert`): replaces the value
stored at `k` when present, otherwise adds a binding for `k`. -/
def mapInsert (m : List (Nat × Job)) (k : Nat) (v : Job) : List (Nat × Job) :=
  if (m.find? (fun p => p.1 == k)).isSome then
    m.map (fun p => if p.1 == k then (k, v) else p)
  else
    m ++ [(k, v)]

/-- Remove from the stable map (`StableBTreeMap::remove`). -/
def mapRemove (m : List (Nat × Job)) (k : Nat) : List (Nat × Job) :=
  m.filter (fun p => p.1 != k)

/-- The canister's durable state: the `ID_COUNTER` cell and the `STORAGE`
stable map. -/
structure State where
  counter : Nat
  storage : List (Nat × Job)
  deriving DecidableEq, Repr

/-- Initial state: counter cell initialised to 0, empty map. -/
def initState : State :=
  { counter := 0, storage := [] }

/-- `create_job`: reject empty title or description; otherwise read the
counter `v`, store `(v + 1) % 2^64` back (u64 cell), build the Job with that
id, `created_at = time()`, empty applicants and no accepted applicant, and
insert it into storage under `job.id`. -/
def create_job (s : State) (now : Nat) (job : CreateJob) :
    Except Error Job × State :=
  if job.title.isEmpty || job.description.isEmpty then
    (Except.error (Error.InvalidInput "All fields must be provided and non-empty"), s)
  else
    let id := (s.counter + 1) % U64_LIMIT
    let j : Job :=
      { id := id, title := job.title, description := job.description,
        created_at := now, applicant_name := [], accepted_applicants := none }
    (Except.ok j, { counter := id, storage := mapInsert s.storage j.id j })

/-- `apply_to_job`: reject an empty applicant name; otherwise fetch the job by
id, push the name onto its applicant list and write the job back under
`job.id`; `JobNotFound` when the id has no record. -/
def apply_to_job (s : State) (job_id : Nat) (applicant_name : String) :
    Except Error Unit × State :=
  if applicant_name.isEmpty then
    (Except.error (Error.InvalidInput "Applicant name must be provided and non-empty"), s)
  else
    match mapGet s.storage job_id with
    | some job =>
        let job2 : Job :=
          { job with applicant_name := job.applicant_name ++ [applicant_name] }
        (Except.ok (), { s with storage := mapInsert s.storage job2.id job2 })
    | none =>
        (Except.error (Error.JobNotFound s!"Job with id {job_id} not found"), s)

/-- `withdraw_application`: reject an empty applicant name; otherwise fetch
the job, retain only the applicant entries different from the name (removing
every occurrence) and write the job back under `job.id`; `JobNotFound` when
the id has no record. -/
def withdraw_application (s : State) (job_id : Nat) (applicant_name : String) :
    Except Error Unit × State :=
  if applicant_name.isEmpty then
    (Except.error (Error.InvalidInput "Applicant name must be provided and non-empty"), s)
  else
    match mapGet s.storage job_id with
    | some job =>
        let job2 : Job :=
          { job with applicant_name :=
              job.applicant_name.filter (fun name => name != applicant_name) }
        (Except.ok (), { s with storage := mapInsert s.storage job2.id job2 })
    | none =>
        (Except.error (Error.JobNotFound s!"Job with id {job_id} not found"), s)

/-- `cancel_job`: remove the record; `Ok(())` when a record was removed,
`JobNotFound` otherwise. -/
def cancel_job (s : State) (job_id : Nat) : Except Error Unit × State :=
  match mapGet s.storage job_id with
  | some _ =>
      (Except.ok (), { s with storage := mapRemove s.storage job_id })
  | none =>
      (Except.error (Error.JobNotFound s!"Job with id {job_id} not found"), s)

/-- `accept_job`: reject an empty applicant name; otherwise fetch the job; if
the name is among its applicants, set `accepted_applicants = Some(name)` and
write the job back under `job.id`, else `InvalidInput`; `JobNotFound` when the
id has no record. -/
def accept_job (s : State) (job_id : Nat) (applicant_name : String) :
    Except Error Unit × State :=
  if applicant_name.isEmpty then
    (Except.error (Error.InvalidInput "Applicant name must be provided and non-empty"), s)
  else
    match mapGet s.storage job_id with
    | some job =>
        if job.applicant_name.contains applicant_name then
          let job2 : Job := { job with accepted_applicants := some applicant_name }
          (Except.ok (), { s with storage := mapInsert s.storage job2.id job2 })
        else
          (Except.error (Error.InvalidInput
            s!"Applicant {applicant_name} not found in job {job_id}"), s)
    | none =>
        (Except.error (Error.JobNotFound s!"Job with id {job_id} not found"), s)

/-- `fetch_job`: read-only lookup. -/
def fetch_job (s : State) (job_id : Nat) : Except Error Job :=
  match mapGet s.storage job_id with
  | some job => Except.ok job
  | none => Except.error (Error.JobNotFound s!"Job with id {job_id} not found")

/-- One remote call, for stating invariants over arbitrary operations. -/
inductive Op where
  | createOp (now : Nat) (cj : CreateJob)
  | applyOp (job_id : Nat) (applicant_name : String)
  | withdrawOp (job_id : Nat) (applicant_name : String)
  | acceptOp (job_id : Nat) (applicant_name : String)
  | cancelOp (job_id : Nat)
  deriving DecidableEq, Repr

/-- The state reached after one call (its returned value discarded). -/
def stepOp (s : State) (op : Op) : State :=
  match op with
  | .createOp now cj => (create_job s now cj).2
  | .applyOp i n => (apply_to_job s i n).2
  | .withdrawOp i n => (withdraw_application s i n).2
  | .acceptOp i n => (accept_job s i n).2
  | .cancelOp i => (cancel_job s i).2

/-- The counter cell does not overflow on this call (only `create_job`
touches the counter). -/
def opNoOverflow (s : State) (op : Op) : Prop :=
  match op with
  | .createOp _ _ => s.counter + 1 < U64_LIMIT
  | _ => True

/-- Every stored binding's key equals the `id` field of its Job. -/
def keysMatch (s : State) : Prop :=
  ∀ p ∈ s.storage, (p.2).id = p.1

/-- Every stored key is at most the current counter value (so an id strictly
above the counter was never issued and has no record). -/
def idsBounded (s : State) : Prop :=
  ∀ p ∈ s.storage, p.1 ≤ s.counter

/-- Every stored key is at least 1 (the counter starts at 0 and a create
stores counter + 1, so id 0 is never issued and has no record). -/
def idsPositive (s : State) : Prop :=
  ∀ p ∈ s.storage, 1 ≤ p.1

instance (s : State) : Decidable (keysMatch s) :=
  List.decidableBAll _ s.storage

instance (s : State) : Decidable (idsBounded s) :=
  List.decidableBAll _ s.storage

instance (s : State) : Decidable (idsPositive s) :=
  List.decidableBAll _ s.storage

/-! ### Lemmas about the stable-map model -/

theorem find?_replace (m : List (Nat × Job)) (k : Nat) (v : Job) :
    (m.map (fun p => if p.1 == k then (k, v) else p)).find? (fun p => p.1 == k)
      = (m.find? (fun p => p.1 == k)).map (fun _ => (k, v)) := by
  induction m with
  | nil => rfl
  | cons a t ih =>
      by_cases h : a.1 = k
      · simp [List.find?_cons_of_pos, h]
      · have hb : (a.1 == k) = false := by simp [h]
        simp only [List.map_cons, hb, if_false]
        rw [List.find?_cons_of_neg _ (by simp [hb]),
            List.find?_cons_of_neg _ (by simp [hb])]
        exact ih

theorem mapGet_insert_self (m : List (Nat × Job)) (k : Nat) (v : Job) :
    mapGet (mapInsert m k v) k = some v := by
  unfold mapGet mapInsert
  by_cases h : (m.find? (fun p => p.1 == k)).isSome
  · rw [if_pos h, find?_replace]
    obtain ⟨q, hq⟩ := Option.isSome_iff_exists.mp h
    simp [hq]
  · rw [if_neg h, List.find?_append]
    have hnone : m.find? (fun p => p.1 == k) = none :=
      Option.not_isSome_iff_eq_none.mp h
    simp [hnone]

theorem find?_replace_ne (m : List (Nat × Job)) (k k' : Nat) (v : Job)
    (h : k' ≠ k) :
    (m.map (fun p => if p.1 == k then (k, v) else p)).find? (fun p => p.1 == k')
      = m.find? (fun p => p.1 == k') := by
  have hkk : ¬ (k = k') := fun e => h e.symm
  induction m with
  | nil => rfl
  | cons a t ih =>
      simp only [List.map_cons]
      by_cases hak : a.1 = k
      · rw [if_pos (by simp [hak]),
            List.find?_cons_of_neg _ (by simp [hkk]),
            List.find?_cons_of_neg _ (by simp [hak, hkk])]
        exact ih
      · rw [if_neg (by simp [hak])]
        by_cases ha' : a.1 = k'
        · rw [List.find?_cons_of_pos _ (by simp [ha']),
              List.find?_cons_of_pos _ (by simp [ha'])]
        · rw [List.find?_cons_of_neg _ (by simp [ha']),
              List.find?_cons_of_neg _ (by simp [ha'])]
          exact ih

theorem mapGet_insert_ne (m : List (Nat × Job)) (k k' : Nat) (v : Job)
    (h : k' ≠ k) : mapGet (mapInsert m k v) k' = mapGet m k' := by
  have hkk : ¬ (k = k') := fun e => h e.symm
  unfold mapGet mapInsert
  by_cases hs : (m.find? (fun p => p.1 == k)).isSome
  · rw [if_pos hs, find?_replace_ne m k k' v h]
  · rw [if_neg hs, List.find?_append]
    cases hf : m.find? (fun p => p.1 == k') with
    | some q => simp [hf]
    | none => simp [hf, hkk]

theorem mapGet_remove_self (m : List (Nat × Job)) (k : Nat) :
    mapGet (mapRemove m k) k = none := by
  unfold mapGet mapRemove
  rw [Option.map_eq_none', List.find?_eq_none]
  intro p hp
  have hpk := List.of_mem_filter hp
  simp only [bne_iff_ne, ne_eq] at hpk
  simp [hpk]

theorem mapGet_remove_ne (m : List (Nat × Job)) (k k' : Nat) (h : k' ≠ k) :
    mapGet (mapRemove m k) k' = mapGet m k' := by
  have hkk : ¬ (k = k') := fun e => h e.symm
  unfold mapGet mapRemove
  congr 1
  induction m with
  | nil => rfl
  | cons a t ih =>
      by_cases ha : a.1 = k
      · rw [List.filter_cons_of_neg (by simp [ha]),
            List.find?_cons_of_neg _ (by simp [ha, hkk])]
        exact ih
      · rw [List.filter_cons_of_pos (by simp [ha])]
        by_cases ha' : a.1 = k'
        · rw [List.find?_cons_of_pos _ (by simp [ha']),
              List.find?_cons_of_pos _ (by simp [ha'])]
        · rw [List.find?_cons_of_neg _ (by simp [ha']),
              List.find?_cons_of_neg _ (by simp [ha'])]
          exact ih

theorem mapGet_mem (m : List (Nat × Job)) (k : Nat) (j : Job)
    (h : mapGet m k = some j) : (k, j) ∈ m := by
  unfold mapGet at h
  obtain ⟨q, hq, hj⟩ := Option.map_eq_some.mp h
  have hqk : q.1 = k := by simpa using List.find?_some hq
  have hmem := List.mem_of_find?_eq_some hq
  have : q = (k, j) := by
    cases q
    simp_all
  rwa [this] at hmem

theorem mem_mapInsert (m : List (Nat × Job)) (k : Nat) (v : Job) (p : Nat × Job)
    (hp : p ∈ mapInsert m k v) : p ∈ m ∨ p = (k, v) := by
  unfold mapInsert at hp
  by_cases hs : (m.find? (fun q => q.1 == k)).isSome
  · rw [if_pos hs] at hp
    obtain ⟨q, hq, hpq⟩ := List.mem_map.mp hp
    by_cases hqk : q.1 = k
    · right
      rw [← hpq, if_pos (by simp [hqk])]
    · left
      rwa [← hpq, if_neg (by simp [hqk])]
  · rw [if_neg hs] at hp
    rcases List.mem_append.mp hp with h1 | h1
    · exact Or.inl h1
    · exact Or.inr (by simpa using h1)

theorem mem_mapRemove (m : List (Nat × Job)) (k : Nat) (p : Nat × Job)
    (hp : p ∈ mapRemove m k) : p ∈ m :=
  List.mem_of_mem_filter hp

theorem mapGet_none_of_counter_lt (s : State) (hb : idsBounded s) (k : Nat)
    (hk : s.counter < k) : mapGet s.storage k = none := by
  cases h : mapGet s.storage k with
  | none => rfl
  | some j =>
      have hmem := mapGet_mem s.storage k j h
      have := hb (k, j) hmem
      omega

theorem mapGet_none_of_unissued (s : State) (hp : idsPositive s)
    (hb : idsBounded s) (k : Nat) (hk : k = 0 ∨ s.counter < k) :
    mapGet s.storage k = none := by
  cases h : mapGet s.storage k with
  | none => rfl
  | some j =>
      have hmem := mapGet_mem s.storage k j h
      have h1 := hp (k, j) hmem
      have h2 := hb (k, j) hmem
      rcases hk with hk | hk <;> omega

/-! ### Branch equations for the six operations -/

theorem create_job_invalid_eq (s : State) (now : Nat) (cj : CreateJob)
    (h : (cj.title.isEmpty || cj.description.isEmpty) = true) :
    create_job s now cj =
      (Except.error (Error.InvalidInput "All fields must be provided and non-empty"), s) := by
  unfold create_job
  rw [if_pos h]

theorem create_job_valid_eq (s : State) (now : Nat) (cj : CreateJob)
    (h : ¬ (cj.title.isEmpty || cj.description.isEmpty) = true) :
    create_job s now cj =
      (Except.ok { id := (s.counter + 1) % U64_LIMIT, title := cj.title,
                   description := cj.description, created_at := now,
                   applicant_name := [], accepted_applicants := none },
       { counter := (s.counter + 1) % U64_LIMIT,
         storage := mapInsert s.storage ((s.counter + 1) % U64_LIMIT)
           { id := (s.counter + 1) % U64_LIMIT, title := cj.title,
             description := cj.description, created_at := now,
             applicant_name := [], accepted_applicants := none } }) := by
  unfold create_job
  rw [if_neg h]

theorem apply_to_job_empty_eq (s : State) (job_id : Nat) (name : String)
    (h : name.isEmpty = true) :
    apply_to_job s job_id name =
      (Except.error (Error.InvalidInput "Applicant name must be provided and non-empty"), s) := by
  unfold apply_to_job
  rw [if_pos h]

theorem apply_to_job_none_eq (s : State) (job_id : Nat) (name : String)
    (h : ¬ name.isEmpty = true) (hget : mapGet s.storage job_id = none) :
    apply_to_job s job_id name =
      (Except.error (Error.JobNotFound s!"Job with id {job_id} not found"), s) := by
  unfold apply_to_job
  rw [if_neg h, hget]

theorem apply_to_job_found_eq (s : State) (job_id : Nat) (name : String)
    (job : Job) (h : ¬ name.isEmpty = true)
    (hget : mapGet s.storage job_id = some job) :
    apply_to_job s job_id name =
      (Except.ok (), { s with storage := mapInsert s.storage job.id ({ job with applicant_name := job.applicant_name ++ [name] }) }) := by
  unfold apply_to_job
  rw [if_neg h, hget]

theorem withdraw_application_empty_eq (s : State) (job_id : Nat) (name : String)
    (h : name.isEmpty = true) :
    withdraw_application s job_id name =
      (Except.error (Error.InvalidInput "Applicant name must be provided and non-empty"), s) := by
  unfold withdraw_application
  rw [if_pos h]

theorem withdraw_application_none_eq (s : State) (job_id : Nat) (name : String)
    (h : ¬ name.isEmpty = true) (hget : mapGet s.storage job_id = none) :
    withdraw_application s job_id name =
      (Except.error (Error.JobNotFound s!"Job with id {job_id} not found"), s) := by
  unfold withdraw_application
  rw [if_neg h, hget]

theorem withdraw_application_found_eq (s : State) (job_id : Nat) (name : String)
    (job : Job) (h : ¬ name.isEmpty = true)
    (hget : mapGet s.storage job_id = some job) :
    withdraw_application s job_id name =
      (Except.ok (), { s with storage := mapInsert s.storage job.id ({ job with applicant_name := job.applicant_name.filter (fun n => n != name) }) }) := by
  unfold withdraw_application
  rw [if_neg h, hget]

theorem cancel_job_none_eq (s : State) (job_id : Nat)
    (hget : mapGet s.storage job_id = none) :
    cancel_job s job_id =
      (Except.error (Error.JobNotFound s!"Job with id {job_id} not found"), s) := by
  unfold cancel_job
  rw [hget]

theorem cancel_job_found_eq (s : State) (job_id : Nat) (job : Job)
    (hget : mapGet s.storage job_id = some job) :
    cancel_job s job_id =
      (Except.ok (), { s with storage := mapRemove s.storage job_id }) := by
  unfold cancel_job
  rw [hget]

theorem accept_job_empty_eq (s : State) (job_id : Nat) (name : String)
    (h : name.isEmpty = true) :
    accept_job s job_id name =
      (Except.error (Error.InvalidInput "Applicant name must be provided and non-empty"), s) := by
  unfold accept_job
  rw [if_pos h]

theorem accept_job_none_eq (s : State) (job_id : Nat) (name : String)
    (h : ¬ name.isEmpty = true) (hget : mapGet s.storage job_id = none) :
    accept_job s job_id name =
      (Except.error (Error.JobNotFound s!"Job with id {job_id} not found"), s) := by
  unfold accept_job
  rw [if_neg h, hget]

theorem accept_job_not_mem_eq (s : State) (job_id : Nat) (name : String)
    (job : Job) (h : ¬ name.isEmpty = true)
    (hget : mapGet s.storage job_id = some job)
    (hmem : ¬ job.applicant_name.contains name = true) :
    accept_job s job_id name =
      (Except.error (Error.InvalidInput
        s!"Applicant {name} not found in job {job_id}"), s) := by
  unfold accept_job
  rw [if_neg h, hget]
  simp only [if_neg hmem]

theorem accept_job_mem_eq (s : State) (job_id : Nat) (name : String)
    (job : Job) (h : ¬ name.isEmpty = true)
    (hget : mapGet s.storage job_id = some job)
    (hmem : job.applicant_name.contains name = true) :
    accept_job s job_id name =
      (Except.ok (), { s with storage := mapInsert s.storage job.id ({ job with accepted_applicants := some name }) }) := by
  unfold accept_job
  rw [if_neg h, hget]
  simp only [if_pos hmem]

theorem fetch_job_none_eq (s : State) (job_id : Nat)
    (hget : mapGet s.storage job_id = none) :
    fetch_job s job_id =
      Except.error (Error.JobNotFound s!"Job with id {job_id} not found") := by
  unfold fetch_job
  rw [hget]

theorem fetch_job_found_eq (s : State) (job_id : Nat) (job : Job)
    (hget : mapGet s.storage job_id = some job) :
    fetch_job s job_id = Except.ok job := by
  unfold fetch_job
  rw [hget]

/-! ### Invariant preservation -/

/-- A remote call keeps every stored key equal to its Job's `id` field:
write-backs go under `job.id` and `create_job` inserts the new job under its
own id. -/
theorem keysMatch_step (s : State) (op : Op) (hkm : keysMatch s) :
    keysMatch (stepOp s op) := by
  cases op with
  | createOp now cj =>
      by_cases hv : (cj.title.isEmpty || cj.description.isEmpty) = true
      · simp [stepOp, create_job_invalid_eq s now cj hv, hkm]
      · rw [stepOp, create_job_valid_eq s now cj hv]
        intro p hp
        rcases mem_mapInsert _ _ _ _ hp with h1 | h1
        · exact hkm p h1
        · rw [h1]
  | applyOp i n =>
      by_cases he : n.isEmpty = true
      · simp [stepOp, apply_to_job_empty_eq s i n he, hkm]
      · cases hget : mapGet s.storage i with
        | none => simp [stepOp, apply_to_job_none_eq s i n he hget, hkm]
        | some job =>
            rw [stepOp, apply_to_job_found_eq s i n job he hget]
            intro p hp
            rcases mem_mapInsert _ _ _ _ hp with h1 | h1
            · exact hkm p h1
            · rw [h1]
  | withdrawOp i n =>
      by_cases he : n.isEmpty = true
      · simp [stepOp, withdraw_application_empty_eq s i n he, hkm]
      · cases hget : mapGet s.storage i with
        | none => simp [stepOp, withdraw_application_none_eq s i n he hget, hkm]
        | some job =>
            rw [stepOp, withdraw_application_found_eq s i n job he hget]
            intro p hp
            rcases mem_mapInsert _ _ _ _ hp with h1 | h1
            · exact hkm p h1
            · rw [h1]
  | acceptOp i n =>
      by_cases he : n.isEmpty = true
      · simp [stepOp, accept_job_empty_eq s i n he, hkm]
      · cases hget : mapGet s.storage i with
        | none => simp [stepOp, accept_job_none_eq s i n he hget, hkm]
        | some job =>
            by_cases hmem : job.applicant_name.contains n = true
            · rw [stepOp, accept_job_mem_eq s i n job he hget hmem]
              intro p hp
              rcases mem_mapInsert _ _ _ _ hp with h1 | h1
              · exact hkm p h1
              · rw [h1]
            · simp [stepOp, accept_job_not_mem_eq s i n job he hget hmem, hkm]
  | cancelOp i =>
      cases hget : mapGet s.storage i with
      | none => simp [stepOp, cancel_job_none_eq s i hget, hkm]
      | some job =>
          rw [stepOp, cancel_job_found_eq s i job hget]
          intro p hp
          exact hkm p (mem_mapRemove _ _ _ hp)

/-- A remote call whose counter increment does not overflow keeps every
stored key at most the counter: the counter never decreases and write-backs
reuse keys already in the table. -/
theorem idsBounded_step (s : State) (op : Op) (hno : opNoOverflow s op)
    (hkm : keysMatch s) (hb : idsBounded s) : idsBounded (stepOp s op) := by
  cases op with
  | createOp now cj =>
      by_cases hv : (cj.title.isEmpty || cj.description.isEmpty) = true
      · simp [stepOp, create_job_invalid_eq s now cj hv, hb]
      · rw [stepOp, create_job_valid_eq s now cj hv]
        have hmod : (s.counter + 1) % U64_LIMIT = s.counter + 1 :=
          Nat.mod_eq_of_lt hno
        intro p hp
        rcases mem_mapInsert _ _ _ _ hp with h1 | h1
        · have := hb p h1
          simp only [hmod]
          omega
        · rw [h1]
  | applyOp i n =>
      by_cases he : n.isEmpty = true
      · simp [stepOp, apply_to_job_empty_eq s i n he, hb]
      · cases hget : mapGet s.storage i with
        | none => simp [stepOp, apply_to_job_none_eq s i n he hget, hb]
        | some job =>
            rw [stepOp, apply_to_job_found_eq s i n job he hget]
            have hid : job.id = i := hkm (i, job) (mapGet_mem _ _ _ hget)
            have hile : i ≤ s.counter := hb (i, job) (mapGet_mem _ _ _ hget)
            intro p hp
            rcases mem_mapInsert _ _ _ _ hp with h1 | h1
            · exact hb p h1
            · rw [h1]
              simpa [hid] using hile
  | withdrawOp i n =>
      by_cases he : n.isEmpty = true
      · simp [stepOp, withdraw_application_empty_eq s i n he, hb]
      · cases hget : mapGet s.storage i with
        | none => simp [stepOp, withdraw_application_none_eq s i n he hget, hb]
        | some job =>
            rw [stepOp, withdraw_application_found_eq s i n job he hget]
            have hid : job.id = i := hkm (i, job) (mapGet_mem _ _ _ hget)
            have hile : i ≤ s.counter := hb (i, job) (mapGet_mem _ _ _ hget)
            intro p hp
            rcases mem_mapInsert _ _ _ _ hp with h1 | h1
            · exact hb p h1
            · rw [h1]
              simpa [hid] using hile
  | acceptOp i n =>
      by_cases he : n.isEmpty = true
      · simp [stepOp, accept_job_empty_eq s i n he, hb]
      · cases hget : mapGet s.storage i with
        | none => simp [stepOp, accept_job_none_eq s i n he hget, hb]
        | some job =>
            by_cases hmem : job.applicant_name.contains n = true
            · rw [stepOp, accept_job_mem_eq s i n job he hget hmem]
              have hid : job.id = i := hkm (i, job) (mapGet_mem _ _ _ hget)
              have hile : i ≤ s.counter := hb (i, job) (mapGet_mem _ _ _ hget)
              intro p hp
              rcases mem_mapInsert _ _ _ _ hp with h1 | h1
              · exact hb p h1
              · rw [h1]
                simpa [hid] using hile
            · simp [stepOp, accept_job_not_mem_eq s i n job he hget hmem, hb]
  | cancelOp i =>
      cases hget : mapGet s.storage i with
      | none => simp [stepOp, cancel_job_none_eq s i hget, hb]
      | some job =>
          rw [stepOp, cancel_job_found_eq s i job hget]
          intro p hp
          exact hb p (mem_mapRemove _ _ _ hp)

/-- A remote call whose counter increment does not overflow keeps every
stored key at least 1: the new id on a create is counter + 1 >= 1, and
write-backs reuse keys already in the table. -/
theorem idsPositive_step (s : State) (op : Op) (hno : opNoOverflow s op)
    (hkm : keysMatch s) (hp : idsPositive s) : idsPositive (stepOp s op) := by
  cases op with
  | createOp now cj =>
      by_cases hv : (cj.title.isEmpty || cj.description.isEmpty) = true
      · simp [stepOp, create_job_invalid_eq s now cj hv, hp]
      · rw [stepOp, create_job_valid_eq s now cj hv]
        have hmod : (s.counter + 1) % U64_LIMIT = s.counter + 1 :=
          Nat.mod_eq_of_lt hno
        intro p hpm
        rcases mem_mapInsert _ _ _ _ hpm with h1 | h1
        · exact hp p h1
        · rw [h1]
          show 1 ≤ (s.counter + 1) % U64_LIMIT
          rw [hmod]
          omega
  | applyOp i n =>
      by_cases he : n.isEmpty = true
      · simp [stepOp, apply_to_job_empty_eq s i n he, hp]
      · cases hget : mapGet s.storage i with
        | none => simp [stepOp, apply_to_job_none_eq s i n he hget, hp]
        | some job =>
            rw [stepOp, apply_to_job_found_eq s i n job he hget]
            have hid : job.id = i := hkm (i, job) (mapGet_mem _ _ _ hget)
            have hile : 1 ≤ i := hp (i, job) (mapGet_mem _ _ _ hget)
            intro p hpm
            rcases mem_mapInsert _ _ _ _ hpm with h1 | h1
            · exact hp p h1
            · rw [h1]
              simpa [hid] using hile
  | withdrawOp i n =>
      by_cases he : n.isEmpty = true
      · simp [stepOp, withdraw_application_empty_eq s i n he, hp]
      · cases hget : mapGet s.storage i with
        | none => simp [stepOp, withdraw_application_none_eq s i n he hget, hp]
        | some job =>
            rw [stepOp, withdraw_application_found_eq s i n job he hget]
            have hid : job.id = i := hkm (i, job) (mapGet_mem _ _ _ hget)
            have hile : 1 ≤ i := hp (i, job) (mapGet_mem _ _ _ hget)
            intro p hpm
            rcases mem_mapInsert _ _ _ _ hpm with h1 | h1
            · exact hp p h1
            · rw [h1]
              simpa [hid] using hile
  | acceptOp i n =>
      by_cases he : n.isEmpty = true
      · simp [stepOp, accept_job_empty_eq s i n he, hp]
      · cases hget : mapGet s.storage i with
        | none => simp [stepOp, accept_job_none_eq s i n he hget, hp]
        | some job =>
            by_cases hmem : job.applicant_name.contains n = true
            · rw [stepOp, accept_job_mem_eq s i n job he hget hmem]
              have hid : job.id = i := hkm (i, job) (mapGet_mem _ _ _ hget)
              have hile : 1 ≤ i := hp (i, job) (mapGet_mem _ _ _ hget)
              intro p hpm
              rcases mem_mapInsert _ _ _ _ hpm with h1 | h1
              · exact hp p h1
              · rw [h1]
                simpa [hid] using hile
            · simp [stepOp, accept_job_not_mem_eq s i n job he hget hmem, hp]
  | cancelOp i =>
      cases hget : mapGet s.storage i with
      | none => simp [stepOp, cancel_job_none_eq s i hget, hp]
      | some job =>
          rw [stepOp, cancel_job_found_eq s i job hget]
          intro p hpm
          exact hp p (mem_mapRemove _ _ _ hpm)

/-- The calls that mutate an existing record in place:
`apply_to_job`, `withdraw_application`, `accept_job`. -/
def isMutator : Op → Bool
  | .applyOp _ _ => true
  | .withdrawOp _ _ => true
  | .acceptOp _ _ => true
  | _ => false

/-- One mutating call keeps each stored record present and leaves its `id`,
`title`, `description` and `created_at` fields unchanged. -/
theorem mutator_frame (s : State) (op : Op) (hmut : isMutator op = true)
    (hkm : keysMatch s) (k : Nat) (job : Job)
    (hget : mapGet s.storage k = some job) :
    ∃ job', mapGet (stepOp s op).storage k = some job' ∧
      job'.id = job.id ∧ job'.title = job.title ∧
      job'.description = job.description ∧ job'.created_at = job.created_at := by
  cases op with
  | createOp now cj => simp [isMutator] at hmut
  | cancelOp i => simp [isMutator] at hmut
  | applyOp i n =>
      by_cases he : n.isEmpty = true
      · refine ⟨job, ?_, rfl, rfl, rfl, rfl⟩
        simp [stepOp, apply_to_job_empty_eq s i n he, hget]
      · cases hget0 : mapGet s.storage i with
        | none =>
            refine ⟨job, ?_, rfl, rfl, rfl, rfl⟩
            simp [stepOp, apply_to_job_none_eq s i n he hget0, hget]
        | some job0 =>
            have hid : job0.id = i := hkm (i, job0) (mapGet_mem _ _ _ hget0)
            rw [stepOp, apply_to_job_found_eq s i n job0 he hget0]
            by_cases hk : k = i
            · subst hk
              have hjj : job0 = job := by
                rw [hget0] at hget
                exact Option.some.inj hget
              subst hjj
              refine ⟨{ job0 with applicant_name := job0.applicant_name ++ [n] },
                ?_, rfl, rfl, rfl, rfl⟩
              rw [hid]
              exact mapGet_insert_self s.storage k _
            · refine ⟨job, ?_, rfl, rfl, rfl, rfl⟩
              rw [mapGet_insert_ne s.storage job0.id k _ (by rw [hid]; exact hk)]
              exact hget
  | withdrawOp i n =>
      by_cases he : n.isEmpty = true
      · refine ⟨job, ?_, rfl, rfl, rfl, rfl⟩
        simp [stepOp, withdraw_application_empty_eq s i n he, hget]
      · cases hget0 : mapGet s.storage i with
        | none =>
            refine ⟨job, ?_, rfl, rfl, rfl, rfl⟩
            simp [stepOp, withdraw_application_none_eq s i n he hget0, hget]
        | some job0 =>
            have hid : job0.id = i := hkm (i, job0) (mapGet_mem _ _ _ hget0)
            rw [stepOp, withdraw_application_found_eq s i n job0 he hget0]
            by_cases hk : k = i
            · subst hk
              have hjj : job0 = job := by
                rw [hget0] at hget
                exact Option.some.inj hget
              subst hjj
              refine ⟨{ job0 with applicant_name :=
                  job0.applicant_name.filter (fun x => x != n) },
                ?_, rfl, rfl, rfl, rfl⟩
              rw [hid]
              exact mapGet_insert_self s.storage k _
            · refine ⟨job, ?_, rfl, rfl, rfl, rfl⟩
              rw [mapGet_insert_ne s.storage job0.id k _ (by rw [hid]; exact hk)]
              exact hget
  | acceptOp i n =>
      by_cases he : n.isEmpty = true
      · refine ⟨job, ?_, rfl, rfl, rfl, rfl⟩
        simp [stepOp, accept_job_empty_eq s i n he, hget]
      · cases hget0 : mapGet s.storage i with
        | none =>
            refine ⟨job, ?_, rfl, rfl, rfl, rfl⟩
            simp [stepOp, accept_job_none_eq s i n he hget0, hget]
        | some job0 =>
            have hid : job0.id = i := hkm (i, job0) (mapGet_mem _ _ _ hget0)
            by_cases hmem : job0.applicant_name.contains n = true
            · rw [stepOp, accept_job_mem_eq s i n job0 he hget0 hmem]
              by_cases hk : k = i
              · subst hk
                have hjj : job0 = job := by
                  rw [hget0] at hget
                  exact Option.some.inj hget
                subst hjj
                refine ⟨{ job0 with accepted_applicants := some n },
                  ?_, rfl, rfl, rfl, rfl⟩
                rw [hid]
                exact mapGet_insert_self s.storage k _
              · refine ⟨job, ?_, rfl, rfl, rfl, rfl⟩
                rw [mapGet_insert_ne s.storage job0.id k _ (by rw [hid]; exact hk)]
                exact hget
            · refine ⟨job, ?_, rfl, rfl, rfl, rfl⟩
              simp [stepOp, accept_job_not_mem_eq s i n job0 he hget0 hmem, hget]

theorem contains_iff (l : List String) (a : String) :
    l.contains a = true ↔ a ∈ l := by
  simp [List.contains, List.elem_iff]

/-- A sample populated state for concrete instantiations: one job with two
applicants. -/
def sampleJob : Job :=
  { id := 1, title := "Eng", description := "Build X", created_at := 5,
    applicant_name := ["Alice", "Bob"], accepted_applicants := none }

def sampleState : State :=
  { counter := 1, storage := [(1, sampleJob)] }

/-- A sample state whose single job has no applicants yet. -/
def sampleJobNoApp : Job :=
  { id := 1, title := "Eng", description := "Build X", created_at := 5,
    applicant_name := [], accepted_applicants := none }

def sampleStateNoApp : State :=
  { counter := 1, storage := [(1, sampleJobNoApp)] }

theorem apply_to_job_counter (s : State) (i : Nat) (n : String) :
    (apply_to_job s i n).2.counter = s.counter := by
  unfold apply_to_job
  split
  · rfl
  · split <;> rfl

theorem withdraw_application_counter (s : State) (i : Nat) (n : String) :
    (withdraw_application s i n).2.counter = s.counter := by
  unfold withdraw_application
  split
  · rfl
  · split <;> rfl

theorem accept_job_counter (s : State) (i : Nat) (n : String) :
    (accept_job s i n).2.counter = s.counter := by
  unfold accept_job
  split
  · rfl
  · split
    · split <;> rfl
    · rfl

theorem cancel_job_counter (s : State) (i : Nat) :
    (cancel_job s i).2.counter = s.counter := by
  unfold cancel_job
  split <;> rfl

/-! ### The claims -/

/-- C1: job ids come from the durable counter — the counter starts at 0 (so
the first issued id is 1), a successful `create_job` returns id equal to the
previous counter value plus one and commits that value, ids strictly exceed
the previous counter, a fresh id is never already in the table (never reused,
even across cancellations), no operation decreases the counter, and the
stored-ids-bounded-by-counter invariant is preserved by every operation
(all under the u64 counter cell not overflowing). -/
theorem C1_durable_counter_allocation :
    initState.counter = 0 ∧
    (∀ now cj j, (create_job initState now cj).1 = Except.ok j → j.id = 1) ∧
    (∀ s now cj j, s.counter + 1 < U64_LIMIT →
      (create_job s now cj).1 = Except.ok j →
        j.id = s.counter + 1 ∧
        (create_job s now cj).2.counter = s.counter + 1 ∧
        s.counter < j.id ∧
        (idsBounded s → mapGet s.storage j.id = none)) ∧
    (∀ s op, opNoOverflow s op → s.counter ≤ (stepOp s op).counter) ∧
    (∀ s op, opNoOverflow s op → keysMatch s → idsBounded s →
      idsBounded (stepOp s op)) := by
  refine ⟨rfl, ?_, ?_, ?_, fun s op => idsBounded_step s op⟩
  · intro now cj j hok
    by_cases hv : (cj.title.isEmpty || cj.description.isEmpty) = true
    · rw [create_job_invalid_eq initState now cj hv] at hok
      exact absurd hok (by simp)
    · rw [create_job_valid_eq initState now cj hv] at hok
      have hj := (Except.ok.inj hok).symm
      subst hj
      show (initState.counter + 1) % U64_LIMIT = 1
      decide
  · intro s now cj j hno hok
    by_cases hv : (cj.title.isEmpty || cj.description.isEmpty) = true
    · rw [create_job_invalid_eq s now cj hv] at hok
      exact absurd hok (by simp)
    · rw [create_job_valid_eq s now cj hv] at hok ⊢
      have hj := (Except.ok.inj hok).symm
      subst hj
      have hmod : (s.counter + 1) % U64_LIMIT = s.counter + 1 :=
        Nat.mod_eq_of_lt hno
      refine ⟨hmod, hmod, ?_, ?_⟩
      · show s.counter < (s.counter + 1) % U64_LIMIT
        rw [hmod]
        omega
      · intro hb
        show mapGet s.storage ((s.counter + 1) % U64_LIMIT) = none
        refine mapGet_none_of_counter_lt s hb _ ?_
        rw [hmod]
        omega
  · intro s op hno
    cases op with
    | createOp now cj =>
        by_cases hv : (cj.title.isEmpty || cj.description.isEmpty) = true
        · rw [stepOp, create_job_invalid_eq s now cj hv]
        · rw [stepOp, create_job_valid_eq s now cj hv]
          show s.counter ≤ (s.counter + 1) % U64_LIMIT
          rw [Nat.mod_eq_of_lt hno]
          omega
    | applyOp i n =>
        show s.counter ≤ (apply_to_job s i n).2.counter
        rw [apply_to_job_counter]
    | withdrawOp i n =>
        show s.counter ≤ (withdraw_application s i n).2.counter
        rw [withdraw_application_counter]
    | acceptOp i n =>
        show s.counter ≤ (accept_job s i n).2.counter
        rw [accept_job_counter]
    | cancelOp i =>
        show s.counter ≤ (cancel_job s i).2.counter
        rw [cancel_job_counter]

theorem C1_durable_counter_allocation_witness :
    ({ id := 1, title := "Eng", description := "Build X", created_at := 5,
       applicant_name := [], accepted_applicants := none } : Job).id =
      initState.counter + 1 :=
  (C1_durable_counter_allocation.2.2.1 initState 5
    { title := "Eng", description := "Build X" }
    { id := 1, title := "Eng", description := "Build X", created_at := 5,
      applicant_name := [], accepted_applicants := none }
    (by decide) (by decide)).1

/-- C9: over any sequence of `apply_to_job`, `withdraw_application` and
`accept_job` calls (on a state whose stored keys match their Jobs' ids), every
stored job stays present with its `id`, `title`, `description` and
`created_at` fields unchanged — only `applicant_name` and
`accepted_applicants` can change. -/
theorem C9_immutable_fields :
    ∀ (ops : List Op) (s : State), (∀ op ∈ ops, isMutator op = true) →
      keysMatch s → ∀ k job, mapGet s.storage k = some job →
      ∃ job', mapGet (ops.foldl stepOp s).storage k = some job' ∧
        job'.id = job.id ∧ job'.title = job.title ∧
        job'.description = job.description ∧
        job'.created_at = job.created_at := by
  intro ops
  induction ops with
  | nil =>
      intro s _ _ k job hget
      exact ⟨job, hget, rfl, rfl, rfl, rfl⟩
  | cons op t ih =>
      intro s hops hkm k job hget
      obtain ⟨job1, hget1, e1, e2, e3, e4⟩ :=
        mutator_frame s op (hops op (List.mem_cons_self op t)) hkm k job hget
      obtain ⟨job', hget', f1, f2, f3, f4⟩ :=
        ih (stepOp s op) (fun o ho => hops o (List.mem_cons_of_mem op ho))
          (keysMatch_step s op hkm) k job1 hget1
      exact ⟨job', hget', f1.trans e1, f2.trans e2, f3.trans e3, f4.trans e4⟩

theorem C9_immutable_fields_witness :
    ∃ job', mapGet (([Op.applyOp 1 "Carol", Op.acceptOp 1 "Bob",
        Op.withdrawOp 1 "Alice"] : List Op).foldl stepOp sampleState).storage 1 =
        some job' ∧
      job'.id = sampleJob.id ∧ job'.title = sampleJob.title ∧
      job'.description = sampleJob.description ∧
      job'.created_at = sampleJob.created_at :=
  C9_immutable_fields
    [Op.applyOp 1 "Carol", Op.acceptOp 1 "Bob", Op.withdrawOp 1 "Alice"]
    sampleState (by decide) (by decide) 1 sampleJob rfl

theorem mapGet_insert_eq_key (m : List (Nat × Job)) (k k' : Nat) (v : Job)
    (h : k' = k) : mapGet (mapInsert m k v) k' = some v := by
  rw [h]
  exact mapGet_insert_self m k v

theorem accepted_frame_or (m' : List (Nat × Job)) (k : Nat) (job V : Job)
    (op : Op) (s : State) (hsome : mapGet m' k = some V)
    (hacc : V.accepted_applicants = job.accepted_applicants) :
    (mapGet m' k = none → op = Op.cancelOp k) ∧
    (∀ job', mapGet m' k = some job' →
      job'.accepted_applicants = job.accepted_applicants ∨
      ∃ n, op = Op.acceptOp k n ∧ (accept_job s k n).1 = Except.ok () ∧
        job'.accepted_applicants = some n ∧ n ∈ job.applicant_name) := by
  constructor
  · intro hnone
    rw [hsome] at hnone
    exact absurd hnone (by simp)
  · intro job' hget'
    rw [hsome] at hget'
    refine Or.inl ?_
    rw [← Option.some.inj hget']
    exact hacc

theorem accepted_set_aux (m' : List (Nat × Job)) (k : Nat) (job V : Job)
    (op : Op) (s : State) (n : String) (hsome : mapGet m' k = some V)
    (hop : op = Op.acceptOp k n) (hok : (accept_job s k n).1 = Except.ok ())
    (hV : V.accepted_applicants = some n) (hmem : n ∈ job.applicant_name) :
    (mapGet m' k = none → op = Op.cancelOp k) ∧
    (∀ job', mapGet m' k = some job' →
      job'.accepted_applicants = job.accepted_applicants ∨
      ∃ n2, op = Op.acceptOp k n2 ∧ (accept_job s k n2).1 = Except.ok () ∧
        job'.accepted_applicants = some n2 ∧ n2 ∈ job.applicant_name) := by
  constructor
  · intro hnone
    rw [hsome] at hnone
    exact absurd hnone (by simp)
  · intro job' hget'
    rw [hsome] at hget'
    refine Or.inr ⟨n, hop, hok, ?_, hmem⟩
    rw [← Option.some.inj hget']
    exact hV

/-- C2: `accepted_applicants` holds at most one name (it is an Option); when
`accept_job` succeeds, the accepted name was an element of the job's
applicant list at that moment and the job is stored back with
`accepted_applicants = some name`; a failing `accept_job` leaves the state
unchanged; and under EVERY operation, each stored job's
`accepted_applicants` field either stays exactly as it was or — only for a
successful `accept_job` addressed to that very id — becomes `some n` for a
name `n` in that job's applicant list (so it is never unset), and a record
can only disappear through `cancel_job` of that very id. -/
theorem C2_accepted_applicant_invariant :
    (∀ s id name job, mapGet s.storage id = some job →
      (accept_job s id name).1 = Except.ok () →
        name ∈ job.applicant_name ∧
        mapGet (accept_job s id name).2.storage job.id =
          some ({ job with accepted_applicants := some name })) ∧
    (∀ s id name, (accept_job s id name).1 ≠ Except.ok () →
      (accept_job s id name).2 = s) ∧
    (∀ s op, opNoOverflow s op → keysMatch s → idsBounded s →
      ∀ k job, mapGet s.storage k = some job →
        (mapGet (stepOp s op).storage k = none → op = Op.cancelOp k) ∧
        (∀ job', mapGet (stepOp s op).storage k = some job' →
          job'.accepted_applicants = job.accepted_applicants ∨
          ∃ n, op = Op.acceptOp k n ∧ (accept_job s k n).1 = Except.ok () ∧
            job'.accepted_applicants = some n ∧
            n ∈ job.applicant_name)) := by
  refine ⟨?_, ?_, ?_⟩
  · intro s id name job hget hok
    by_cases he : name.isEmpty = true
    · rw [accept_job_empty_eq s id name he] at hok
      exact absurd hok (by simp)
    · by_cases hmem : job.applicant_name.contains name = true
      · refine ⟨(contains_iff _ _).mp hmem, ?_⟩
        rw [accept_job_mem_eq s id name job he hget hmem]
        exact mapGet_insert_self s.storage job.id _
      · rw [accept_job_not_mem_eq s id name job he hget hmem] at hok
        exact absurd hok (by simp)
  · intro s id name hne
    by_cases he : name.isEmpty = true
    · rw [accept_job_empty_eq s id name he]
    · cases hget : mapGet s.storage id with
      | none => rw [accept_job_none_eq s id name he hget]
      | some job =>
          by_cases hmem : job.applicant_name.contains name = true
          · rw [accept_job_mem_eq s id name job he hget hmem] at hne
            exact absurd rfl hne
          · rw [accept_job_not_mem_eq s id name job he hget hmem]
  · intro s op hno hkm hb k job hget
    cases op with
    | createOp now cj =>
        by_cases hv : (cj.title.isEmpty || cj.description.isEmpty) = true
        · rw [stepOp, create_job_invalid_eq s now cj hv]
          exact accepted_frame_or _ k job job _ s hget rfl
        · rw [stepOp, create_job_valid_eq s now cj hv]
          have hkc : k ≤ s.counter := hb (k, job) (mapGet_mem _ _ _ hget)
          have hmod : (s.counter + 1) % U64_LIMIT = s.counter + 1 :=
            Nat.mod_eq_of_lt hno
          have hkne : k ≠ (s.counter + 1) % U64_LIMIT := by
            rw [hmod]
            omega
          exact accepted_frame_or _ k job job _ s
            ((mapGet_insert_ne s.storage _ k _ hkne).trans hget) rfl
    | applyOp i n =>
        by_cases he : n.isEmpty = true
        · rw [stepOp, apply_to_job_empty_eq s i n he]
          exact accepted_frame_or _ k job job _ s hget rfl
        · cases hget0 : mapGet s.storage i with
          | none =>
              rw [stepOp, apply_to_job_none_eq s i n he hget0]
              exact accepted_frame_or _ k job job _ s hget rfl
          | some job0 =>
              have hid : job0.id = i := hkm (i, job0) (mapGet_mem _ _ _ hget0)
              rw [stepOp, apply_to_job_found_eq s i n job0 he hget0]
              by_cases hk : k = i
              · have hjj : job0 = job := by
                  rw [hk, hget0] at hget
                  exact Option.some.inj hget
                refine accepted_frame_or _ k job _ _ s
                  (mapGet_insert_eq_key s.storage job0.id k _
                    (by rw [hk, hid])) ?_
                show job0.accepted_applicants = job.accepted_applicants
                rw [hjj]
              · have hkne : k ≠ job0.id := by
                  rw [hid]
                  exact hk
                exact accepted_frame_or _ k job job _ s
                  ((mapGet_insert_ne s.storage job0.id k _ hkne).trans hget) rfl
    | withdrawOp i n =>
        by_cases he : n.isEmpty = true
        · rw [stepOp, withdraw_application_empty_eq s i n he]
          exact accepted_frame_or _ k job job _ s hget rfl
        · cases hget0 : mapGet s.storage i with
          | none =>
              rw [stepOp, withdraw_application_none_eq s i n he hget0]
              exact accepted_frame_or _ k job job _ s hget rfl
          | some job0 =>
              have hid : job0.id = i := hkm (i, job0) (mapGet_mem _ _ _ hget0)
              rw [stepOp, withdraw_application_found_eq s i n job0 he hget0]
              by_cases hk : k = i
              · have hjj : job0 = job := by
                  rw [hk, hget0] at hget
                  exact Option.some.inj hget
                refine accepted_frame_or _ k job _ _ s
                  (mapGet_insert_eq_key s.storage job0.id k _
                    (by rw [hk, hid])) ?_
                show job0.accepted_applicants = job.accepted_applicants
                rw [hjj]
              · have hkne : k ≠ job0.id := by
                  rw [hid]
                  exact hk
                exact accepted_frame_or _ k job job _ s
                  ((mapGet_insert_ne s.storage job0.id k _ hkne).trans hget) rfl
    | acceptOp i n =>
        by_cases he : n.isEmpty = true
        · rw [stepOp, accept_job_empty_eq s i n he]
          exact accepted_frame_or _ k job job _ s hget rfl
        · cases hget0 : mapGet s.storage i with
          | none =>
              rw [stepOp, accept_job_none_eq s i n he hget0]
              exact accepted_frame_or _ k job job _ s hget rfl
          | some job0 =>
              have hid : job0.id = i := hkm (i, job0) (mapGet_mem _ _ _ hget0)
              by_cases hmem : job0.applicant_name.contains n = true
              · rw [stepOp, accept_job_mem_eq s i n job0 he hget0 hmem]
                by_cases hk : k = i
                · have hjj : job0 = job := by
                    rw [hk, hget0] at hget
                    exact Option.some.inj hget
                  refine accepted_set_aux _ k job _ _ s n
                    (mapGet_insert_eq_key s.storage job0.id k _
                      (by rw [hk, hid])) (by rw [hk]) ?_ rfl ?_
                  · rw [hk, accept_job_mem_eq s i n job0 he hget0 hmem]
                  · rw [← hjj]
                    exact (contains_iff _ _).mp hmem
                · have hkne : k ≠ job0.id := by
                    rw [hid]
                    exact hk
                  exact accepted_frame_or _ k job job _ s
                    ((mapGet_insert_ne s.storage job0.id k _ hkne).trans hget) rfl
              · rw [stepOp, accept_job_not_mem_eq s i n job0 he hget0 hmem]
                exact accepted_frame_or _ k job job _ s hget rfl
    | cancelOp i =>
        cases hget0 : mapGet s.storage i with
        | none =>
            rw [stepOp, cancel_job_none_eq s i hget0]
            exact accepted_frame_or _ k job job _ s hget rfl
        | some job0 =>
            by_cases hk : k = i
            · have hred : mapGet (stepOp s (Op.cancelOp i)).storage k = none := by
                rw [stepOp, cancel_job_found_eq s i job0 hget0, hk]
                exact mapGet_remove_self s.storage i
              constructor
              · intro _
                rw [hk]
              · intro job' hget'
                rw [hred] at hget'
                exact absurd hget' (by simp)
            · rw [stepOp, cancel_job_found_eq s i job0 hget0]
              exact accepted_frame_or _ k job job _ s
                ((mapGet_remove_ne s.storage i k hk).trans hget) rfl

theorem C2_accepted_applicant_invariant_witness :
    "Bob" ∈ sampleJob.applicant_name ∧
    mapGet (accept_job sampleState 1 "Bob").2.storage sampleJob.id =
      some ({ sampleJob with accepted_applicants := some "Bob" }) :=
  C2_accepted_applicant_invariant.1 sampleState 1 "Bob" sampleJob rfl (by decide)

/-- C4: calling `create_job` with an empty title or an empty description
returns `InvalidInput`, leaves the id counter unchanged (no id is allocated)
and inserts no record into the table. -/
theorem C4_create_job_invalid_input (s : State) (now : Nat) (cj : CreateJob)
    (h : cj.title.isEmpty = true ∨ cj.description.isEmpty = true) :
    (∃ m, (create_job s now cj).1 = Except.error (Error.InvalidInput m)) ∧
    (create_job s now cj).2.counter = s.counter ∧
    (create_job s now cj).2.storage = s.storage := by
  have hb : (cj.title.isEmpty || cj.description.isEmpty) = true := by
    rcases h with h | h <;> simp [h]
  rw [create_job_invalid_eq s now cj hb]
  exact ⟨⟨_, rfl⟩, rfl, rfl⟩

theorem C4_create_job_invalid_input_witness :
    (∃ m, (create_job initState 0 { title := "", description := "x" }).1 =
      Except.error (Error.InvalidInput m)) ∧
    (create_job initState 0 { title := "", description := "x" }).2.counter =
      initState.counter ∧
    (create_job initState 0 { title := "", description := "x" }).2.storage =
      initState.storage :=
  C4_create_job_invalid_input initState 0 { title := "", description := "x" }
    (Or.inl (by decide))

/-- C5: a successful `create_job` returning job `j` makes a subsequent
`fetch_job j.id` on the new state return exactly the same Job, whose title,
description and creation time are the request's, with an empty applicant list
and no accepted applicant. -/
theorem C5_create_fetch_roundtrip (s : State) (now : Nat) (cj : CreateJob)
    (j : Job) (hok : (create_job s now cj).1 = Except.ok j) :
    fetch_job (create_job s now cj).2 j.id = Except.ok j ∧
    j.title = cj.title ∧ j.description = cj.description ∧
    j.created_at = now ∧ j.applicant_name = [] ∧
    j.accepted_applicants = none := by
  by_cases hv : (cj.title.isEmpty || cj.description.isEmpty) = true
  · rw [create_job_invalid_eq s now cj hv] at hok
    exact absurd hok (by simp)
  · rw [create_job_valid_eq s now cj hv] at hok ⊢
    have hj : j = { id := (s.counter + 1) % U64_LIMIT, title := cj.title,
                    description := cj.description, created_at := now,
                    applicant_name := [], accepted_applicants := none } :=
      (Except.ok.inj hok).symm
    subst hj
    refine ⟨?_, rfl, rfl, rfl, rfl, rfl⟩
    exact fetch_job_found_eq _ _ _ (mapGet_insert_self _ _ _)

theorem C5_create_fetch_roundtrip_witness :
    fetch_job (create_job initState 5 { title := "Eng", description := "Build X" }).2
        ({ id := 1, title := "Eng", description := "Build X", created_at := 5,
           applicant_name := [], accepted_applicants := none } : Job).id =
      Except.ok { id := 1, title := "Eng", description := "Build X",
                  created_at := 5, applicant_name := [], accepted_applicants := none } :=
  (C5_create_fetch_roundtrip initState 5 { title := "Eng", description := "Build X" }
    { id := 1, title := "Eng", description := "Build X", created_at := 5,
              applicant_name := [], accepted_applicants := none } (by decide)).1

/-- C10: in `apply_to_job`, `withdraw_application` and `accept_job`, the
empty-name check precedes the table lookup, so an empty applicant name yields
`InvalidInput` for every state and id — including ids with no record —
giving `InvalidInput` precedence over `JobNotFound`. -/
theorem C10_empty_name_precedence (s : State) (job_id : Nat) (name : String)
    (h : name.isEmpty = true) :
    (∃ m, (apply_to_job s job_id name).1 = Except.error (Error.InvalidInput m)) ∧
    (∃ m, (withdraw_application s job_id name).1 =
      Except.error (Error.InvalidInput m)) ∧
    (∃ m, (accept_job s job_id name).1 = Except.error (Error.InvalidInput m)) := by
  rw [apply_to_job_empty_eq s job_id name h,
      withdraw_application_empty_eq s job_id name h,
      accept_job_empty_eq s job_id name h]
  exact ⟨⟨_, rfl⟩, ⟨_, rfl⟩, ⟨_, rfl⟩⟩

/-- C3: for an existing job and a non-empty applicant name, `accept_job`
returns `InvalidInput` and leaves the state unchanged when the name is not
among the job's applicants; when it is among them, it returns `Ok(())` and a
subsequent `fetch_job` of that id yields the job with
`accepted_applicants = some name`. -/
theorem C3_accept_job_cases (s : State) (id : Nat) (name : String) (job : Job)
    (hne : ¬ name.isEmpty = true) (hget : mapGet s.storage id = some job)
    (hid : job.id = id) :
    (name ∉ job.applicant_name →
      (∃ m, (accept_job s id name).1 = Except.error (Error.InvalidInput m)) ∧
      (accept_job s id name).2 = s) ∧
    (name ∈ job.applicant_name →
      (accept_job s id name).1 = Except.ok () ∧
      fetch_job (accept_job s id name).2 id =
        Except.ok ({ job with accepted_applicants := some name })) := by
  constructor
  · intro hnm
    have hc : ¬ job.applicant_name.contains name = true := fun hc =>
      hnm ((contains_iff _ _).mp hc)
    rw [accept_job_not_mem_eq s id name job hne hget hc]
    exact ⟨⟨_, rfl⟩, rfl⟩
  · intro hm
    have hc : job.applicant_name.contains name = true :=
      (contains_iff _ _).mpr hm
    rw [accept_job_mem_eq s id name job hne hget hc]
    refine ⟨rfl, ?_⟩
    apply fetch_job_found_eq
    rw [hid]
    exact mapGet_insert_self s.storage id _

theorem C3_accept_job_cases_witness :
    ((accept_job sampleState 1 "Bob").1 = Except.ok () ∧
      fetch_job (accept_job sampleState 1 "Bob").2 1 =
        Except.ok ({ sampleJob with accepted_applicants := some "Bob" })) ∧
    ((∃ m, (accept_job sampleState 1 "Carol").1 =
        Except.error (Error.InvalidInput m)) ∧
      (accept_job sampleState 1 "Carol").2 = sampleState) :=
  ⟨(C3_accept_job_cases sampleState 1 "Bob" sampleJob (by decide) rfl rfl).2
      (by decide),
   (C3_accept_job_cases sampleState 1 "Carol" sampleJob (by decide) rfl rfl).1
      (by decide)⟩

/-- C6: applications are appended without deduplication — applying twice with
the same name to a job with no applicants yet makes `fetch_job` report the
name twice, and one `withdraw_application` then removes all occurrences,
leaving the applicant list empty. -/
theorem C6_duplicate_apply_then_withdraw (s : State) (id : Nat)
    (t d : String) (c : Nat) (acc : Option String) (name : String)
    (hne : ¬ name.isEmpty = true)
    (hget : mapGet s.storage id =
      some { id := id, title := t, description := d, created_at := c,
             applicant_name := [], accepted_applicants := acc }) :
    (apply_to_job s id name).1 = Except.ok () ∧
    (apply_to_job (apply_to_job s id name).2 id name).1 = Except.ok () ∧
    fetch_job (apply_to_job (apply_to_job s id name).2 id name).2 id =
      Except.ok { id := id, title := t, description := d, created_at := c,
                  applicant_name := [name, name], accepted_applicants := acc } ∧
    (withdraw_application
        (apply_to_job (apply_to_job s id name).2 id name).2 id name).1 =
      Except.ok () ∧
    fetch_job (withdraw_application
        (apply_to_job (apply_to_job s id name).2 id name).2 id name).2 id =
      Except.ok { id := id, title := t, description := d, created_at := c,
                  applicant_name := [], accepted_applicants := acc } := by
  have h1 := apply_to_job_found_eq s id name _ hne hget
  have hget1 : mapGet (apply_to_job s id name).2.storage id =
      some { id := id, title := t, description := d, created_at := c,
             applicant_name := [name], accepted_applicants := acc } := by
    rw [h1]
    exact mapGet_insert_self s.storage id _
  have h2 := apply_to_job_found_eq _ id name _ hne hget1
  have hget2 : mapGet (apply_to_job (apply_to_job s id name).2 id name).2.storage id =
      some { id := id, title := t, description := d, created_at := c,
             applicant_name := [name, name], accepted_applicants := acc } := by
    rw [h2]
    exact mapGet_insert_self _ id _
  have h3 := withdraw_application_found_eq _ id name _ hne hget2
  have hfil : ([name, name] : List String).filter (fun x => x != name) = [] := by
    simp
  have hget3 : mapGet (withdraw_application
      (apply_to_job (apply_to_job s id name).2 id name).2 id name).2.storage id =
      some { id := id, title := t, description := d, created_at := c,
             applicant_name := [], accepted_applicants := acc } := by
    rw [h3, hfil]
    exact mapGet_insert_self _ id _
  exact ⟨by rw [h1], by rw [h2], fetch_job_found_eq _ _ _ hget2,
         by rw [h3], fetch_job_found_eq _ _ _ hget3⟩

theorem C6_duplicate_apply_then_withdraw_witness :
    (apply_to_job sampleStateNoApp 1 "Alice").1 = Except.ok () ∧
    (apply_to_job (apply_to_job sampleStateNoApp 1 "Alice").2 1 "Alice").1 =
      Except.ok () ∧
    fetch_job (apply_to_job (apply_to_job sampleStateNoApp 1 "Alice").2 1 "Alice").2 1 =
      Except.ok { id := 1, title := "Eng", description := "Build X", created_at := 5,
                  applicant_name := ["Alice", "Alice"], accepted_applicants := none } ∧
    (withdraw_application
        (apply_to_job (apply_to_job sampleStateNoApp 1 "Alice").2 1 "Alice").2
        1 "Alice").1 = Except.ok () ∧
    fetch_job (withdraw_application
        (apply_to_job (apply_to_job sampleStateNoApp 1 "Alice").2 1 "Alice").2
        1 "Alice").2 1 =
      Except.ok { id := 1, title := "Eng", description := "Build X", created_at := 5,
                  applicant_name := [], accepted_applicants := none } :=
  C6_duplicate_apply_then_withdraw sampleStateNoApp 1 "Eng" "Build X" 5 none
    "Alice" (by decide) rfl

/-- C7: `withdraw_application` returns `InvalidInput` exactly when the name is
empty and `JobNotFound` exactly when the id has no record; when the job exists
it returns `Ok(())`, and if the name was never an applicant the stored record
is unchanged (a silent no-op, not an error). -/
theorem C7_withdraw_application_cases (s : State) (id : Nat) (name : String) :
    (name.isEmpty = true →
      (∃ m, (withdraw_application s id name).1 =
        Except.error (Error.InvalidInput m)) ∧
      (withdraw_application s id name).2 = s) ∧
    (¬ name.isEmpty = true → mapGet s.storage id = none →
      (∃ m, (withdraw_application s id name).1 =
        Except.error (Error.JobNotFound m)) ∧
      (withdraw_application s id name).2 = s) ∧
    (∀ job, ¬ name.isEmpty = true → mapGet s.storage id = some job →
      (withdraw_application s id name).1 = Except.ok () ∧
      (name ∉ job.applicant_name → job.id = id →
        fetch_job (withdraw_application s id name).2 id = Except.ok job)) := by
  refine ⟨?_, ?_, ?_⟩
  · intro he
    rw [withdraw_application_empty_eq s id name he]
    exact ⟨⟨_, rfl⟩, rfl⟩
  · intro hne hget
    rw [withdraw_application_none_eq s id name hne hget]
    exact ⟨⟨_, rfl⟩, rfl⟩
  · intro job hne hget
    have h1 := withdraw_application_found_eq s id name job hne hget
    refine ⟨by rw [h1], ?_⟩
    intro hnm hid
    have hfil : job.applicant_name.filter (fun n => n != name) =
        job.applicant_name :=
      List.filter_eq_self.mpr (fun a ha => by
        simp only [bne_iff_ne, ne_eq]
        exact fun he => hnm (he ▸ ha))
    rw [h1]
    apply fetch_job_found_eq
    rw [hfil, ← hid]
    exact mapGet_insert_self s.storage job.id _

theorem C7_withdraw_application_cases_witness :
    ((∃ m, (withdraw_application sampleState 1 "").1 =
        Except.error (Error.InvalidInput m)) ∧
      (withdraw_application sampleState 1 "").2 = sampleState) ∧
    ((∃ m, (withdraw_application sampleState 7 "Alice").1 =
        Except.error (Error.JobNotFound m)) ∧
      (withdraw_application sampleState 7 "Alice").2 = sampleState) ∧
    ((withdraw_application sampleState 1 "Carol").1 = Except.ok () ∧
      fetch_job (withdraw_application sampleState 1 "Carol").2 1 =
        Except.ok sampleJob) :=
  ⟨(C7_withdraw_application_cases sampleState 1 "").1 rfl,
   (C7_withdraw_application_cases sampleState 7 "Alice").2.1 (by decide) rfl,
   ⟨((C7_withdraw_application_cases sampleState 1 "Carol").2.2 sampleJob
       (by decide) rfl).1,
    ((C7_withdraw_application_cases sampleState 1 "Carol").2.2 sampleJob
       (by decide) rfl).2 (by decide) rfl⟩⟩

/-- C8: after a successful `cancel_job id`, `fetch_job id` returns
`JobNotFound` and a second `cancel_job id` also returns `JobNotFound`; and an
id never returned by `create_job` — id 0 (issued ids start at 1) or any id
strictly above the counter, in a state whose stored ids are positive and
bounded by the counter — makes every operation referencing it return
`JobNotFound` (with a non-empty name where one is required). -/
theorem C8_cancelled_and_unissued_ids (s : State) (id : Nat) :
    (∀ job, mapGet s.storage id = some job →
      (cancel_job s id).1 = Except.ok () ∧
      (∃ m, fetch_job (cancel_job s id).2 id =
        Except.error (Error.JobNotFound m)) ∧
      (∃ m, (cancel_job (cancel_job s id).2 id).1 =
        Except.error (Error.JobNotFound m))) ∧
    (∀ name, idsPositive s → idsBounded s → (id = 0 ∨ s.counter < id) →
      ¬ name.isEmpty = true →
      (∃ m, fetch_job s id = Except.error (Error.JobNotFound m)) ∧
      (∃ m, (apply_to_job s id name).1 = Except.error (Error.JobNotFound m)) ∧
      (∃ m, (withdraw_application s id name).1 =
        Except.error (Error.JobNotFound m)) ∧
      (∃ m, (accept_job s id name).1 = Except.error (Error.JobNotFound m)) ∧
      (∃ m, (cancel_job s id).1 = Except.error (Error.JobNotFound m))) := by
  constructor
  · intro job hget
    have h1 := cancel_job_found_eq s id job hget
    have hnone : mapGet (cancel_job s id).2.storage id = none := by
      rw [h1]
      exact mapGet_remove_self s.storage id
    exact ⟨by rw [h1],
      ⟨_, fetch_job_none_eq _ id hnone⟩,
      ⟨_, by rw [cancel_job_none_eq _ id hnone]⟩⟩
  · intro name hpos hb hun hne
    have hnone : mapGet s.storage id = none :=
      mapGet_none_of_unissued s hpos hb id hun
    exact ⟨⟨_, fetch_job_none_eq s id hnone⟩,
      ⟨_, by rw [apply_to_job_none_eq s id name hne hnone]⟩,
      ⟨_, by rw [withdraw_application_none_eq s id name hne hnone]⟩,
      ⟨_, by rw [accept_job_none_eq s id name hne hnone]⟩,
      ⟨_, by rw [cancel_job_none_eq s id hnone]⟩⟩

theorem C8_cancelled_and_unissued_ids_witness :
    ((cancel_job sampleState 1).1 = Except.ok () ∧
      (∃ m, fetch_job (cancel_job sampleState 1).2 1 =
        Except.error (Error.JobNotFound m)) ∧
      (∃ m, (cancel_job (cancel_job sampleState 1).2 1).1 =
        Except.error (Error.JobNotFound m))) ∧
    ((∃ m, fetch_job sampleState 9 = Except.error (Error.JobNotFound m)) ∧
      (∃ m, (apply_to_job sampleState 9 "Alice").1 =
        Except.error (Error.JobNotFound m)) ∧
      (∃ m, (withdraw_application sampleState 9 "Alice").1 =
        Except.error (Error.JobNotFound m)) ∧
      (∃ m, (accept_job sampleState 9 "Alice").1 =
        Except.error (Error.JobNotFound m)) ∧
      (∃ m, (cancel_job sampleState 9).1 =
        Except.error (Error.JobNotFound m))) ∧
    ((∃ m, fetch_job sampleState 0 = Except.error (Error.JobNotFound m)) ∧
      (∃ m, (apply_to_job sampleState 0 "Alice").1 =
        Except.error (Error.JobNotFound m)) ∧
      (∃ m, (withdraw_application sampleState 0 "Alice").1 =
        Except.error (Error.JobNotFound m)) ∧
      (∃ m, (accept_job sampleState 0 "Alice").1 =
        Except.error (Error.JobNotFound m)) ∧
      (∃ m, (cancel_job sampleState 0).1 =
        Except.error (Error.JobNotFound m))) :=
  ⟨(C8_cancelled_and_unissued_ids sampleState 1).1 sampleJob rfl,
   (C8_cancelled_and_unissued_ids sampleState 9).2 "Alice" (by decide)
     (by decide) (Or.inr (by decide)) (by decide),
   (C8_cancelled_and_unissued_ids sampleState 0).2 "Alice" (by decide)
     (by decide) (Or.inl rfl) (by decide)⟩

theorem C10_empty_name_precedence_witness :
    mapGet initState.storage 7 = none ∧
    ((∃ m, (apply_to_job initState 7 "").1 =
        Except.error (Error.InvalidInput m)) ∧
     (∃ m, (withdraw_application initState 7 "").1 =
        Except.error (Error.InvalidInput m)) ∧
     (∃ m, (accept_job initState 7 "").1 =
        Except.error (Error.InvalidInput m))) :=
  ⟨rfl, C10_empty_name_precedence initState 7 "" rfl⟩

end CryptoHire
